import Mathlib

/-!
Verification of the Photonicat PMU framing, correlation and dispatch engine
(`drivers/mfd/photonicat-pmu.c`).

The development shallowly embeds the protocol engine: frame encoding
(`pcat_pmu_raw_write`), incremental decoding and validation
(`pcat_process_data`), reply correlation (`pcat_process_reply`), the
retry/timeout loop (`pcat_pmu_execute`), the bounded reassembly buffer
(`pcat_pmu_receive_buf`), and the string-read helper
(`pcat_pmu_read_string`).  Machine integers are modelled as `Nat` with
explicit `% 2^w` where the C code truncates; byte reads from the wire apply
`% 256` (the C code reads through `u8 *`).
-/

namespace PcatPmu

/-- `PCAT_ADDR_CPU` -/
def PCAT_ADDR_CPU : Nat := 0x01
/-- `PCAT_ADDR_PMU` -/
def PCAT_ADDR_PMU : Nat := 0x81
/-- `PCAT_ADDR_CPU_ALL` -/
def PCAT_ADDR_CPU_ALL : Nat := 0x80
/-- `PCAT_ADDR_ALL` -/
def PCAT_ADDR_ALL : Nat := 0xFF
/-- `PCAT_MAGIC_HEAD` -/
def PCAT_MAGIC_HEAD : Nat := 0xA5
/-- `PCAT_MAGIC_END` -/
def PCAT_MAGIC_END : Nat := 0x5A

/-- One step of the reflected CRC-16 bit loop (polynomial 0xA001), as in the
kernel's `lib/crc16.c` table generator. -/
def crc16_bit (c : Nat) : Nat :=
  if c % 2 = 1 then (c / 2) ^^^ 0xA001 else c / 2

/-- Process one byte of the kernel `crc16` (table lookup unfolded to the
eight-bit loop that generates the table). -/
def crc16_byte (c b : Nat) : Nat :=
  crc16_bit (crc16_bit (crc16_bit (crc16_bit
    (crc16_bit (crc16_bit (crc16_bit (crc16_bit (c ^^^ (b % 256)))))))))

/-- `crc16(init, data, len)` from `lib/crc16.c`:  fold `crc16_byte` over the
byte list. -/
def crc16 (init : Nat) (data : List Nat) : Nat :=
  data.foldl crc16_byte init

/-- Little-endian serialization of a `u16` field. -/
def u16le (x : Nat) : List Nat :=
  [x % 256, x / 256 % 256]

/-- The serialized `struct pcat_data_head` (packed, little-endian):
`magic_head, source, dest, frame_id, length, command` — 9 bytes. -/
def pcat_frame_head (source dest fid len cmd : Nat) : List Nat :=
  [PCAT_MAGIC_HEAD, source % 256, dest % 256] ++ u16le fid ++ u16le len ++ u16le cmd

/-- The CRC stored in the footer by `pcat_pmu_raw_write`: `crc16(0xFFFF)` over
head bytes 1..8, then the body, then the single `need_ack` byte. -/
def pcat_frame_crc (source dest fid cmd : Nat) (need_ack : Bool) (body : List Nat) : Nat :=
  crc16 0xFFFF ((pcat_frame_head source dest fid ((body.length + 3) % 65536) cmd).drop 1
    ++ body ++ [if need_ack then 1 else 0])

/-- The full byte sequence written by `pcat_pmu_raw_write` for given source and
destination addresses: head (with `length = len + sizeof(foot) - 1 = len + 3`),
body, then foot (`need_ack`, `crc16` LE, `magic_end`). -/
def pcat_raw_frame (source dest fid cmd : Nat) (need_ack : Bool) (body : List Nat) : List Nat :=
  pcat_frame_head source dest fid ((body.length + 3) % 65536) cmd
    ++ body
    ++ ([if need_ack then 1 else 0]
        ++ u16le (pcat_frame_crc source dest fid cmd need_ack body)
        ++ [PCAT_MAGIC_END])

/-- `pcat_pmu_raw_write` hardcodes `source = PCAT_ADDR_CPU`,
`dest = PCAT_ADDR_PMU`; this is the byte stream it hands to the serdev. -/
def pcat_pmu_raw_write_bytes (fid cmd : Nat) (need_ack : Bool) (body : List Nat) : List Nat :=
  pcat_raw_frame PCAT_ADDR_CPU PCAT_ADDR_PMU fid cmd need_ack body

/-- A decoded frame (the view `struct pcat_data` plus the copied head and foot
fields that `pcat_process_data` reads). -/
structure PcatFrame where
  source : Nat
  dest : Nat
  frame_id : Nat
  length : Nat
  command : Nat
  body : List Nat
  need_ack : Nat
  crc : Nat
deriving DecidableEq, Repr

/-- Outcome of the validation part of `pcat_process_data` (lines 320-371),
one constructor per exit path. -/
inductive ParseResult where
  | tooShortHead   -- len < sizeof(head): -EAGAIN
  | badHeadMagic   -- magic_head != 0xA5: -EBADMSG
  | ignoredSource  -- source != PCAT_ADDR_PMU: return 0
  | ignoredDest    -- dest not CPU/CPU_ALL/ALL: return 0
  | badLength      -- length out of [3, U16_MAX-4): -EBADMSG
  | needMore       -- data_size > len: -EAGAIN
  | badFootMagic   -- magic_end != 0x5A: -EBADMSG
  | badCrc         -- crc16 mismatch: -EBADMSG
  | ok (f : PcatFrame)
deriving DecidableEq, Repr

/-- Read byte `i` of the buffer (C reads through `u8 *`). -/
def pByte (data : List Nat) (i : Nat) : Nat :=
  data.getD i 0 % 256

/-- Read the little-endian `u16` at offset `i`. -/
def pU16 (data : List Nat) (i : Nat) : Nat :=
  pByte data i + 256 * pByte data (i + 1)

/-- The structural-validation part of `pcat_process_data`: head-size check,
head magic, source/destination filter, length bounds, completeness check,
foot magic, CRC — in the order of the C code. -/
def pcat_parse (data : List Nat) : ParseResult :=
  if data.length < 9 then .tooShortHead
  else if pByte data 0 ≠ PCAT_MAGIC_HEAD then .badHeadMagic
  else if pByte data 1 ≠ PCAT_ADDR_PMU then .ignoredSource
  else if pByte data 2 ≠ PCAT_ADDR_CPU ∧ pByte data 2 ≠ PCAT_ADDR_CPU_ALL
          ∧ pByte data 2 ≠ PCAT_ADDR_ALL then .ignoredDest
  else if pU16 data 5 < 3 ∨ 65531 ≤ pU16 data 5 then .badLength
  else if data.length < 9 + pU16 data 5 + 1 then .needMore
  else
    -- frame.size = head->length + 1 - sizeof(struct pcat_data_foot)
    let size := pU16 data 5 + 1 - 4
    if pByte data (12 + size) ≠ PCAT_MAGIC_END then .badFootMagic
    else if pU16 data (10 + size) ≠ crc16 0xFFFF ((data.drop 1).take (pU16 data 5 + 6))
    then .badCrc
    else .ok
      { source := pByte data 1
        dest := pByte data 2
        frame_id := pU16 data 3
        length := pU16 data 5
        command := pU16 data 7
        body := (data.drop 9).take size
        need_ack := pByte data (9 + size)
        crc := pU16 data (10 + size) }

/-- The caller-side view of a `struct pcat_request`: frame id, requested
command, expected reply command (`want`), whether the completion has fired,
and the copied reply frame. -/
structure Pending where
  frame_id : Nat
  cmd : Nat
  want : Nat
  completed : Bool
  reply : Option PcatFrame
deriving DecidableEq, Repr

/-- The expected-reply command after defaulting: `if (req->want == 0)
req->want = req->cmd + 1;` (u16 arithmetic). -/
def pcat_want (r : Pending) : Nat :=
  if r.want = 0 then (r.cmd + 1) % 65536 else r.want

/-- Result of `pcat_process_reply`: whether the frame was consumed, the
pending-slot pointer afterwards, and the request object afterwards. -/
structure ReplyOut where
  processed : Bool
  slot : Option Pending
  request : Option Pending
deriving DecidableEq, Repr

/-- `pcat_process_reply`: under `reply_lock`, skip when no request is pending,
when the frame id mismatches, when the (defaulted) expected command
mismatches, or when the completion already fired; otherwise copy head, foot
and payload into the reply, signal completion, and clear the slot. -/
def pcat_process_reply (slot : Option Pending) (f : PcatFrame) : ReplyOut :=
  match slot with
  | none => ⟨false, none, none⟩
  | some r =>
    if r.frame_id ≠ f.frame_id then ⟨false, some r, some r⟩
    else
      let r1 := if r.want = 0 then { r with want := (r.cmd + 1) % 65536 } else r
      if r1.want ≠ f.command then ⟨false, some r1, some r1⟩
      else if r1.completed then ⟨false, some r1, some r1⟩
      else
        let r2 := { r1 with completed := true, reply := some f }
        ⟨true, none, some r2⟩

/-- One outgoing `pcat_pmu_raw_write` call: its frame id, command, need-ack
flag and body arguments. -/
structure OutMsg where
  frame_id : Nat
  cmd : Nat
  need_ack : Bool
  body : List Nat
deriving DecidableEq, Repr

/-- Result of `pcat_process_data`: the returned errno, the pending slot and
request afterwards, whether the completion fired for this frame, the raw
writes issued (the auto-ack), and whether the notifier chain was called. -/
structure ProcOut where
  ret : Int
  slot : Option Pending
  request : Option Pending
  completed : Bool
  writes : List OutMsg
  notified : Bool
deriving DecidableEq, Repr

/-- `NOTIFY_DONE` (`include/linux/notifier.h`): "Don't care". -/
def NOTIFY_DONE : Nat := 0

/-- `pcat_process_data`: validate the buffer (`pcat_parse`); on a valid frame
first offer it to the pending request, and otherwise run the notifier chain,
auto-acknowledging (`command + 1`, empty body, no ack requested, echoed frame
id) when the chain returns `NOTIFY_DONE` and the frame requested an ack.
`notify` abstracts `blocking_notifier_call_chain`. -/
def pcat_process_data (slot : Option Pending) (notify : Nat → PcatFrame → Nat)
    (data : List Nat) : ProcOut :=
  match pcat_parse data with
  | .tooShortHead => ⟨-11, slot, slot, false, [], false⟩
  | .needMore => ⟨-11, slot, slot, false, [], false⟩
  | .badHeadMagic => ⟨-74, slot, slot, false, [], false⟩
  | .badLength => ⟨-74, slot, slot, false, [], false⟩
  | .badFootMagic => ⟨-74, slot, slot, false, [], false⟩
  | .badCrc => ⟨-74, slot, slot, false, [], false⟩
  | .ignoredSource => ⟨0, slot, slot, false, [], false⟩
  | .ignoredDest => ⟨0, slot, slot, false, [], false⟩
  | .ok f =>
    let ro := pcat_process_reply slot f
    if ro.processed then ⟨0, ro.slot, ro.request, true, [], false⟩
    else if notify f.command f = NOTIFY_DONE ∧ f.need_ack ≠ 0 then
      ⟨0, ro.slot, ro.request, false, [⟨f.frame_id, f.command + 1, false, []⟩], true⟩
    else ⟨0, ro.slot, ro.request, false, [], true⟩

/-- The engine state shared between the receive path and the request engine:
the `atomic_t frame` counter, the single pending-request slot, and the
reassembly buffer (`char buffer[8192]` together with `length`). -/
structure PmuState where
  frame : Nat
  slot : Option Pending
  buffer : List Nat
deriving DecidableEq, Repr

/-- The append step of `pcat_pmu_receive_buf` (lines 393-405): cap the new
length at the 8192-byte capacity, copy in only the bytes that fit, and report
how many were consumed. -/
def pcat_fill_buffer (buffer buf : List Nat) : Nat × List Nat :=
  if 8192 < buffer.length + buf.length then
    (8192 - buffer.length, buffer ++ buf.take (8192 - buffer.length))
  else
    (buf.length, buffer ++ buf)

/-- `pcat_pmu_receive_buf`: ignore empty input; append the new bytes (capped),
run `pcat_process_data` on the accumulated buffer, and clear the buffer unless
the result was `-EAGAIN`.  Returns the consumed count, the new state, and the
writes issued while processing. -/
def pcat_pmu_receive_buf (st : PmuState) (notify : Nat → PcatFrame → Nat)
    (buf : List Nat) : Nat × PmuState × List OutMsg :=
  if buf.length = 0 then (0, st, [])
  else
    let fb := pcat_fill_buffer st.buffer buf
    let out := pcat_process_data st.slot notify fb.2
    let buffer' := if out.ret = -11 then fb.2 else []
    (fb.1, { st with buffer := buffer', slot := out.slot }, out.writes)

/-- `pcat_pmu_send`: draw a fresh frame id from the shared counter
(`atomic_inc_return`, truncated to the u16 `frame_id` argument) and write the
frame with `need_ack = false`. -/
def pcat_pmu_send (st : PmuState) (cmd : Nat) (body : List Nat) : PmuState × OutMsg :=
  ({ st with frame := st.frame + 1 }, ⟨(st.frame + 1) % 65536, cmd, false, body⟩)

/-- The retry loop of `pcat_pmu_execute` (lines 147-173).  `a` is the attempt
index, `rl` the remaining retries (the C code retries while `retries < 3`).
`writeRes a` is the serdev result of attempt `a`'s raw write, `waitOk a`
whether the completion fired within the timeout.  Returns the final result,
the raw-write calls issued, and whether the loop succeeded. -/
def pcat_execute_loop (msg : OutMsg) (writeRes : Nat → Int) (waitOk : Nat → Bool) :
    Nat → Nat → Int × List OutMsg × Bool
  | a, 0 =>
    if writeRes a < 0 then (writeRes a, [msg], false)
    else if waitOk a then (0, [msg], true)
    else (-110, [msg], false)
  | a, rl + 1 =>
    if writeRes a < 0 then (writeRes a, [msg], false)
    else if waitOk a then (0, [msg], true)
    else
      let r := pcat_execute_loop msg writeRes waitOk (a + 1) rl
      (r.1, msg :: r.2.1, r.2.2)

/-- `pcat_pmu_execute`: reset the reply, draw a frame id from the counter when
none was given (truncated to the u16 `frame_id` field), install the pending
request, default `want` to `cmd + 1`, then run the retry loop; on failure the
pending slot is cleared. -/
def pcat_pmu_execute (st : PmuState) (fid0 cmd want0 : Nat) (body : List Nat)
    (writeRes : Nat → Int) (waitOk : Nat → Bool) : Int × PmuState × List OutMsg :=
  let fr := if fid0 = 0 then st.frame + 1 else st.frame
  let fid := if fid0 = 0 then (st.frame + 1) % 65536 else fid0
  let want := if want0 = 0 then (cmd + 1) % 65536 else want0
  let pend : Pending := ⟨fid, cmd, want, false, none⟩
  let st1 : PmuState := { st with frame := fr, slot := some pend }
  let msg : OutMsg := ⟨fid, cmd, true, body⟩
  let r := pcat_execute_loop msg writeRes waitOk 0 3
  if r.2.2 then (0, st1, r.2.1)
  else (r.1, { st1 with slot := none }, r.2.1)

/-- `pcat_pmu_read_string`: the destination buffer of size `len` is zeroed
(`memset`), and when the exchange delivered a payload `d`, its first
`min (len - 1) d.length` bytes are copied over the front of the buffer. -/
def pcat_pmu_read_string (len : Nat) (reply : Option (List Nat)) : List Nat :=
  match reply with
  | none => List.replicate len 0
  | some d =>
    let n := min (len - 1) d.length
    d.take n ++ List.replicate (len - n) 0

/-! ## Helper lemmas -/

/-- `crc16_bit` maps u16 values to u16 values. -/
lemma crc16_bit_lt (c : Nat) (h : c < 65536) : crc16_bit c < 65536 := by
  unfold crc16_bit
  split
  · have h1 : c / 2 < 2 ^ 16 := by omega
    have h2 : (0xA001 : Nat) < 2 ^ 16 := by norm_num
    simpa using Nat.xor_lt_two_pow h1 h2
  · omega

/-- `crc16_byte` maps u16 values to u16 values. -/
lemma crc16_byte_lt (c b : Nat) (h : c < 65536) : crc16_byte c b < 65536 := by
  unfold crc16_byte
  have h0 : c ^^^ b % 256 < 65536 := by
    have h1 : c < 2 ^ 16 := h
    have h2 : b % 256 < 2 ^ 16 := by
      have := Nat.mod_lt b (y := 256) (by norm_num)
      omega
    simpa using Nat.xor_lt_two_pow h1 h2
  exact crc16_bit_lt _ (crc16_bit_lt _ (crc16_bit_lt _ (crc16_bit_lt _ (crc16_bit_lt _
    (crc16_bit_lt _ (crc16_bit_lt _ (crc16_bit_lt _ h0)))))))

/-- The kernel CRC-16 always fits in 16 bits. -/
lemma crc16_lt (init : Nat) (data : List Nat) (h : init < 65536) :
    crc16 init data < 65536 := by
  induction data generalizing init with
  | nil => exact h
  | cons b bs ih => exact ih _ (crc16_byte_lt _ _ h)

/-- Evaluation of `pcat_parse` on a well-formed frame given field-wise: a frame
with the PMU as source, an accepted destination, in-range length field, correct
end magic and matching CRC parses to `ok` with exactly those fields. -/
lemma pcat_parse_shape (s d fl fh ll lh cl ch ab c1 c2 : Nat) (body : List Nat)
    (hs : s = 0x81) (hd : d = 0x01 ∨ d = 0x80 ∨ d = 0xFF)
    (hdlt : d < 256) (hfl : fl < 256) (hfh : fh < 256) (hll : ll < 256) (hlh : lh < 256)
    (hcl : cl < 256) (hch : ch < 256) (hab : ab < 256) (hc1 : c1 < 256) (hc2 : c2 < 256)
    (hlen : ll + 256 * lh = body.length + 3) (hbound : body.length ≤ 65527)
    (hcrc : c1 + 256 * c2 =
      crc16 0xFFFF ([s, d, fl, fh, ll, lh, cl, ch] ++ body ++ [ab])) :
    pcat_parse (0xA5 :: s :: d :: fl :: fh :: ll :: lh :: cl :: ch ::
        (body ++ [ab, c1, c2, 0x5A])) =
      .ok ⟨s, d, fl + 256 * fh, body.length + 3, cl + 256 * ch, body, ab, c1 + 256 * c2⟩ := by
  set L := body.length with hL
  set tail : List Nat := [ab, c1, c2, 0x5A] with htail
  set data : List Nat :=
    0xA5 :: s :: d :: fl :: fh :: ll :: lh :: cl :: ch :: (body ++ tail) with hdata
  have hshape : data = [0xA5, s, d, fl, fh, ll, lh, cl, ch] ++ (body ++ tail) := rfl
  have hlength : data.length = 13 + L := by
    rw [hshape]; simp [htail]; omega
  have hb0 : pByte data 0 = 0xA5 := by
    show (0xA5 : Nat) % 256 = 0xA5; norm_num
  have hb1 : pByte data 1 = s := by
    show s % 256 = s; omega
  have hb2 : pByte data 2 = d := by
    show d % 256 = d; omega
  have hu3 : pU16 data 3 = fl + 256 * fh := by
    show fl % 256 + 256 * (fh % 256) = fl + 256 * fh; omega
  have hu5 : pU16 data 5 = L + 3 := by
    show ll % 256 + 256 * (lh % 256) = L + 3; omega
  have hu7 : pU16 data 7 = cl + 256 * ch := by
    show cl % 256 + 256 * (ch % 256) = cl + 256 * ch; omega
  have hdrop9 : data.drop 9 = body ++ tail := rfl
  have hbody : (data.drop 9).take (L + 3 + 1 - 4) = body := by
    rw [hdrop9]
    have : L + 3 + 1 - 4 = L := by omega
    rw [this, List.take_left' hL.symm]
  have htl : tail.length = 4 := by simp [htail]
  have hgetTail : ∀ k : Nat, k < 4 → data.getD (9 + L + k) 0 = tail.getD k 0 := by
    intro k hk
    rw [hshape, List.getD_append_right _ _ _ _ (by simp; omega),
        List.getD_append_right _ _ _ _ (by simp; omega)]
    congr 1
    simp
    omega
  have hack : pByte data (9 + (L + 3 + 1 - 4)) = ab := by
    have h9 : 9 + (L + 3 + 1 - 4) = 9 + L + 0 := by omega
    unfold pByte
    rw [h9, hgetTail 0 (by norm_num)]
    simp [htail]
    omega
  have hfootm : pByte data (12 + (L + 3 + 1 - 4)) = 0x5A := by
    have h12 : 12 + (L + 3 + 1 - 4) = 9 + L + 3 := by omega
    unfold pByte
    rw [h12, hgetTail 3 (by norm_num)]
    simp [htail]
  have hcrcStored : pU16 data (10 + (L + 3 + 1 - 4)) = c1 + 256 * c2 := by
    have h10 : 10 + (L + 3 + 1 - 4) = 9 + L + 1 := by omega
    unfold pU16 pByte
    rw [h10]
    have h11 : 9 + L + 1 + 1 = 9 + L + 2 := by omega
    rw [h11, hgetTail 1 (by norm_num), hgetTail 2 (by norm_num)]
    simp [htail]
    omega
  have hspan : (data.drop 1).take (L + 3 + 6) = [s, d, fl, fh, ll, lh, cl, ch] ++ body ++ [ab] := by
    have hdrop1 : data.drop 1 = [s, d, fl, fh, ll, lh, cl, ch] ++ (body ++ tail) := rfl
    rw [hdrop1, List.take_append_eq_append_take]
    have h8 : ([s, d, fl, fh, ll, lh, cl, ch] : List Nat).length = 8 := by simp
    rw [List.take_of_length_le (by rw [h8]; omega), h8]
    have h1 : L + 3 + 6 - 8 = L + 1 := by omega
    rw [h1, List.take_append_eq_append_take, List.take_of_length_le (by omega)]
    have h2 : L + 1 - L = 1 := by omega
    rw [h2]
    simp [htail, List.append_assoc]
  have hcrcCalc : crc16 0xFFFF ((data.drop 1).take (L + 3 + 6)) = c1 + 256 * c2 := by
    rw [hspan, hcrc]
  -- now evaluate the ite chain of pcat_parse
  unfold pcat_parse
  rw [if_neg (by rw [hlength]; omega)]
  rw [if_neg (by rw [hb0]; simp [PCAT_MAGIC_HEAD])]
  rw [if_neg (by rw [hb1, hs]; simp [PCAT_ADDR_PMU])]
  rw [if_neg (by
    rw [hb2]
    simp only [PCAT_ADDR_CPU, PCAT_ADDR_CPU_ALL, PCAT_ADDR_ALL]
    rcases hd with h | h | h <;> simp [h])]
  rw [if_neg (by rw [hu5]; omega)]
  rw [if_neg (by rw [hu5, hlength]; omega)]
  simp only [hu5]
  rw [if_neg (by rw [hfootm]; simp [PCAT_MAGIC_END])]
  rw [if_neg (by rw [hcrcStored, hcrcCalc]; exact fun h => h rfl)]
  rw [hb1, hb2, hu3, hu7, hbody, hack, hcrcStored]

/-- Round trip: a frame serialized in the wire format with the PMU as source
and the CPU as destination parses back to exactly its fields, provided the
body is short enough for the length-field bounds check. -/
lemma pcat_parse_raw_frame (fid cmd : Nat) (ack : Bool) (body : List Nat)
    (hfid : fid < 65536) (hcmd : cmd < 65536) (hblen : body.length ≤ 65527) :
    pcat_parse (pcat_raw_frame 0x81 0x01 fid cmd ack body) =
      .ok ⟨0x81, 0x01, fid, body.length + 3, cmd, body, if ack then 1 else 0,
           pcat_frame_crc 0x81 0x01 fid cmd ack body⟩ := by
  have hcLt : pcat_frame_crc 0x81 0x01 fid cmd ack body < 65536 := by
    unfold pcat_frame_crc
    exact crc16_lt _ _ (by norm_num)
  have hm : (body.length + 3) % 65536 = body.length + 3 :=
    Nat.mod_eq_of_lt (by omega)
  have hframe : pcat_raw_frame 0x81 0x01 fid cmd ack body =
      0xA5 :: 0x81 :: 0x01 :: (fid % 256) :: (fid / 256 % 256) ::
      ((body.length + 3) % 256) :: ((body.length + 3) / 256 % 256) ::
      (cmd % 256) :: (cmd / 256 % 256) ::
      (body ++ [if ack then 1 else 0,
                pcat_frame_crc 0x81 0x01 fid cmd ack body % 256,
                pcat_frame_crc 0x81 0x01 fid cmd ack body / 256 % 256, 0x5A]) := by
    simp [pcat_raw_frame, pcat_frame_head, u16le, hm, PCAT_MAGIC_HEAD, PCAT_MAGIC_END]
  have hshape := pcat_parse_shape 0x81 0x01 (fid % 256) (fid / 256 % 256)
      ((body.length + 3) % 256) ((body.length + 3) / 256 % 256)
      (cmd % 256) (cmd / 256 % 256) (if ack then 1 else 0)
      (pcat_frame_crc 0x81 0x01 fid cmd ack body % 256)
      (pcat_frame_crc 0x81 0x01 fid cmd ack body / 256 % 256) body
      rfl (Or.inl rfl) (by norm_num) (by omega) (by omega) (by omega) (by omega)
      (by omega) (by omega) (by split <;> norm_num) (by omega) (by omega)
      (by omega) hblen
      (by
        have e3 : pcat_frame_crc 0x81 0x01 fid cmd ack body % 256
            + 256 * (pcat_frame_crc 0x81 0x01 fid cmd ack body / 256 % 256)
            = pcat_frame_crc 0x81 0x01 fid cmd ack body := by omega
        rw [e3]
        simp [pcat_frame_crc, pcat_frame_head, u16le, hm])
  rw [hframe, hshape]
  have e1 : fid % 256 + 256 * (fid / 256 % 256) = fid := by omega
  have e2 : cmd % 256 + 256 * (cmd / 256 % 256) = cmd := by omega
  have e3 : pcat_frame_crc 0x81 0x01 fid cmd ack body % 256
      + 256 * (pcat_frame_crc 0x81 0x01 fid cmd ack body / 256 % 256)
      = pcat_frame_crc 0x81 0x01 fid cmd ack body := by omega
  rw [e1, e2, e3]

/-- A frame whose length field is at least `U16_MAX - 4` is rejected by the
length-bounds check, regardless of everything after the head. -/
lemma pcat_parse_shape_badLength (s d fl fh ll lh cl ch : Nat) (rest : List Nat)
    (hs : s = 0x81) (hd : d = 0x01) (hll : ll < 256) (hlh : lh < 256)
    (hbig : 65531 ≤ ll + 256 * lh) :
    pcat_parse (0xA5 :: s :: d :: fl :: fh :: ll :: lh :: cl :: ch :: rest) = .badLength := by
  set data : List Nat := 0xA5 :: s :: d :: fl :: fh :: ll :: lh :: cl :: ch :: rest with hdata
  have hb0 : pByte data 0 = 0xA5 := by show (0xA5 : Nat) % 256 = 0xA5; norm_num
  have hb1 : pByte data 1 = s := by show s % 256 = s; omega
  have hb2 : pByte data 2 = d := by show d % 256 = d; omega
  have hu5 : pU16 data 5 = ll + 256 * lh := by
    show ll % 256 + 256 * (lh % 256) = ll + 256 * lh; omega
  have hlength : 9 ≤ data.length := by rw [hdata]; simp
  unfold pcat_parse
  rw [if_neg (by omega)]
  rw [if_neg (by rw [hb0]; simp [PCAT_MAGIC_HEAD])]
  rw [if_neg (by rw [hb1, hs]; simp [PCAT_ADDR_PMU])]
  rw [if_neg (by rw [hb2, hd]; simp [PCAT_ADDR_CPU])]
  rw [if_pos (by rw [hu5]; omega)]

/-- Serializing a body of 65528..65532 bytes produces a length field of at
least `U16_MAX - 4`, which the decoder rejects. -/
lemma pcat_parse_raw_frame_overlong (fid cmd : Nat) (ack : Bool) (body : List Nat)
    (h1 : 65528 ≤ body.length) (h2 : body.length ≤ 65532) :
    pcat_parse (pcat_raw_frame 0x81 0x01 fid cmd ack body) = .badLength := by
  have hm : (body.length + 3) % 65536 = body.length + 3 :=
    Nat.mod_eq_of_lt (by omega)
  have hframe : pcat_raw_frame 0x81 0x01 fid cmd ack body =
      0xA5 :: 0x81 :: 0x01 :: (fid % 256) :: (fid / 256 % 256) ::
      ((body.length + 3) % 256) :: ((body.length + 3) / 256 % 256) ::
      (cmd % 256) :: (cmd / 256 % 256) ::
      (body ++ [if ack then 1 else 0,
                pcat_frame_crc 0x81 0x01 fid cmd ack body % 256,
                pcat_frame_crc 0x81 0x01 fid cmd ack body / 256 % 256, 0x5A]) := by
    simp [pcat_raw_frame, pcat_frame_head, u16le, hm, PCAT_MAGIC_HEAD, PCAT_MAGIC_END]
  rw [hframe]
  exact pcat_parse_shape_badLength _ _ _ _ _ _ _ _ _ rfl rfl (by omega) (by omega) (by omega)

/-! ## Claims -/

set_option maxRecDepth 8000 in
/-- Claim C1, counterexample: encoding the heartbeat (command 0x01, empty
body, no ack requested, frame id 1) puts 3, not 2, in the little-endian
length field at offset 5 — the full frame is
`A5 01 81 01 00 03 00 01 00 00 CB CC 5A` — and feeding the bytes the claim
describes (length field 2) to the decoder yields the ignored-source exit, not
a decoded heartbeat, because the encoder stamps source 0x01 while the decoder
only accepts source 0x81. -/
theorem C1_counterexample :
    (pcat_pmu_raw_write_bytes 1 0x01 false []).getD 5 0 = 3 ∧
    pcat_pmu_raw_write_bytes 1 0x01 false [] =
      [0xA5, 0x01, 0x81, 0x01, 0x00, 0x03, 0x00, 0x01, 0x00, 0x00, 0xCB, 0xCC, 0x5A] ∧
    pcat_parse [0xA5, 0x01, 0x81, 0x01, 0x00, 0x02, 0x00, 0x01, 0x00, 0x00, 0x00, 0x00, 0x5A]
      = .ignoredSource := by
  decide

/-- Claim C1 (amended): encoding command 0x01 (heartbeat) with an empty body
and `need_ack = false` produces exactly the 13 bytes
`A5 01 81 <id_lo id_hi> 03 00 01 00 00 <crc_lo crc_hi> 5A` — the little-endian
length field at offset 5 equals 3 (body length + footer size - 1) for an empty
body — and decoding the corresponding PMU-sourced byte sequence
`A5 81 01 <id_lo id_hi> 03 00 01 00 00 <crc_lo crc_hi> 5A` yields command
0x01, an empty body, and `need_ack = 0`. -/
theorem C1_heartbeat_frame (fid : Nat) (h : fid < 65536) :
    pcat_pmu_raw_write_bytes fid 0x01 false [] =
      [0xA5, 0x01, 0x81, fid % 256, fid / 256, 0x03, 0x00, 0x01, 0x00, 0x00,
       pcat_frame_crc 0x01 0x81 fid 0x01 false [] % 256,
       pcat_frame_crc 0x01 0x81 fid 0x01 false [] / 256, 0x5A] ∧
    pcat_parse (pcat_raw_frame 0x81 0x01 fid 0x01 false []) =
      .ok ⟨0x81, 0x01, fid, 3, 0x01, [], 0, pcat_frame_crc 0x81 0x01 fid 0x01 false []⟩ := by
  have hcLt : pcat_frame_crc 0x01 0x81 fid 0x01 false [] < 65536 := by
    unfold pcat_frame_crc
    exact crc16_lt _ _ (by norm_num)
  constructor
  · have hd1 : fid / 256 % 256 = fid / 256 := by omega
    have hd2 : pcat_frame_crc 0x01 0x81 fid 0x01 false [] / 256 % 256
        = pcat_frame_crc 0x01 0x81 fid 0x01 false [] / 256 := by omega
    simp [pcat_pmu_raw_write_bytes, pcat_raw_frame, pcat_frame_head, u16le, hd1, hd2,
          PCAT_ADDR_CPU, PCAT_ADDR_PMU, PCAT_MAGIC_HEAD, PCAT_MAGIC_END]
  · have := pcat_parse_raw_frame fid 0x01 false [] h (by norm_num) (by norm_num)
    simpa using this

/-- Claim C1 witness at frame id 0x1234. -/
theorem C1_heartbeat_frame_witness :
    (0x1234 : Nat) < 65536 ∧
    (pcat_pmu_raw_write_bytes 0x1234 0x01 false [] =
      [0xA5, 0x01, 0x81, 0x1234 % 256, 0x1234 / 256, 0x03, 0x00, 0x01, 0x00, 0x00,
       pcat_frame_crc 0x01 0x81 0x1234 0x01 false [] % 256,
       pcat_frame_crc 0x01 0x81 0x1234 0x01 false [] / 256, 0x5A] ∧
    pcat_parse (pcat_raw_frame 0x81 0x01 0x1234 0x01 false []) =
      .ok ⟨0x81, 0x01, 0x1234, 3, 0x01, [], 0,
           pcat_frame_crc 0x81 0x01 0x1234 0x01 false []⟩) :=
  ⟨by norm_num, C1_heartbeat_frame 0x1234 (by norm_num)⟩

set_option maxRecDepth 8000 in
/-- Claim C2, counterexample: decoding what the encoder actually writes fails
even for the smallest frame, because the encoder stamps source 0x01 (CPU) and
the decoder ignores any frame whose source is not 0x81 (PMU); and even with
the addresses swapped to the PMU's, a body of 65528 bytes — allowed by the
claim's `< U16_MAX - 6` bound — is rejected by the decoder's length bounds
check, since its length field is 65531 = U16_MAX - 4. -/
theorem C2_counterexample :
    pcat_parse (pcat_pmu_raw_write_bytes 1 0x01 false []) = .ignoredSource ∧
    pcat_parse (pcat_raw_frame 0x81 0x01 1 0x01 false (List.replicate 65528 0))
      = .badLength := by
  constructor
  · decide
  · exact pcat_parse_raw_frame_overlong 1 0x01 false _ (by rw [List.length_replicate]) (by rw [List.length_replicate]; norm_num)

/-- Claim C2 (amended): for every command and frame id (u16) and every body
whose length is less than `U16_MAX - 7`, decoding the byte sequence produced
by serializing that command and body in the wire format with the peer's
addresses (source 0x81, dest 0x01) succeeds validation (magic bytes, length
bounds, CRC) and reproduces the original command code and body bytes exactly,
with the stored CRC equal to the recomputed frame CRC. -/
theorem C2_roundtrip (fid cmd : Nat) (ack : Bool) (body : List Nat)
    (hfid : fid < 65536) (hcmd : cmd < 65536) (hlen : body.length < 65528) :
    pcat_parse (pcat_raw_frame 0x81 0x01 fid cmd ack body) =
      .ok ⟨0x81, 0x01, fid, body.length + 3, cmd, body, if ack then 1 else 0,
           pcat_frame_crc 0x81 0x01 fid cmd ack body⟩ :=
  pcat_parse_raw_frame fid cmd ack body hfid hcmd (by omega)

/-- Claim C2 witness: a concrete three-byte body round-trips. -/
theorem C2_roundtrip_witness :
    (2 : Nat) < 65536 ∧ (5 : Nat) < 65536 ∧ ([10, 20, 30] : List Nat).length < 65528 ∧
    pcat_parse (pcat_raw_frame 0x81 0x01 2 5 true [10, 20, 30]) =
      .ok ⟨0x81, 0x01, 2, 6, 5, [10, 20, 30], 1,
           pcat_frame_crc 0x81 0x01 2 5 true [10, 20, 30]⟩ :=
  ⟨by norm_num, by norm_num, by norm_num,
   C2_roundtrip 2 5 true [10, 20, 30] (by norm_num) (by norm_num) (by norm_num)⟩

/-- When every wait times out and every write succeeds, the retry loop issues
one write per remaining retry plus one, and ends in `-ETIMEDOUT`. -/
lemma pcat_execute_loop_all_timeout (msg : OutMsg) (writeRes : Nat → Int)
    (waitOk : Nat → Bool) (hw : ∀ n, 0 ≤ writeRes n) (ht : ∀ n, waitOk n = false) :
    ∀ rl a, pcat_execute_loop msg writeRes waitOk a rl
      = (-110, List.replicate (rl + 1) msg, false) := by
  intro rl
  induction rl with
  | zero =>
    intro a
    unfold pcat_execute_loop
    rw [if_neg (by have := hw a; omega), ht a]
    simp
  | succ n ih =>
    intro a
    unfold pcat_execute_loop
    rw [if_neg (by have := hw a; omega), ht a, ih (a + 1)]
    simp [List.replicate_succ]

/-- Claim C3: if no matching reply ever arrives (every wait times out) and
every write succeeds, `pcat_pmu_execute` writes the frame with the identical
frame id and command exactly 4 times in total, then clears the
pending-request slot and returns `-ETIMEDOUT`; it never retries a 5th
time. -/
theorem C3_retry_bound (st : PmuState) (fid0 cmd want0 : Nat) (body : List Nat)
    (writeRes : Nat → Int) (waitOk : Nat → Bool)
    (hw : ∀ n, 0 ≤ writeRes n) (ht : ∀ n, waitOk n = false) :
    (pcat_pmu_execute st fid0 cmd want0 body writeRes waitOk).1 = -110 ∧
    (pcat_pmu_execute st fid0 cmd want0 body writeRes waitOk).2.1.slot = none ∧
    (pcat_pmu_execute st fid0 cmd want0 body writeRes waitOk).2.2 =
      List.replicate 4
        ⟨if fid0 = 0 then (st.frame + 1) % 65536 else fid0, cmd, true, body⟩ := by
  simp only [pcat_pmu_execute]
  rw [pcat_execute_loop_all_timeout _ _ _ hw ht 3 0]
  simp

/-- Claim C3 witness: concrete state, always-timeout waits, always-ok
writes. -/
theorem C3_retry_bound_witness :
    (∀ n : Nat, (0:Int) ≤ (fun _ : Nat => (0:Int)) n) ∧
    (∀ n : Nat, (fun _ : Nat => false) n = false) ∧
    ((pcat_pmu_execute ⟨0, none, []⟩ 0 1 0 [] (fun _ => 0) (fun _ => false)).1 = -110 ∧
     (pcat_pmu_execute ⟨0, none, []⟩ 0 1 0 [] (fun _ => 0) (fun _ => false)).2.1.slot = none ∧
     (pcat_pmu_execute ⟨0, none, []⟩ 0 1 0 [] (fun _ => 0) (fun _ => false)).2.2 =
       List.replicate 4 ⟨if (0:Nat) = 0 then (0 + 1) % 65536 else 0, 1, true, []⟩) :=
  ⟨fun _ => le_refl 0, fun _ => rfl,
   C3_retry_bound ⟨0, none, []⟩ 0 1 0 [] (fun _ => 0) (fun _ => false)
     (fun _ => le_refl 0) (fun _ => rfl)⟩

/-- Claim C4: a decoded, validated, address-accepted frame completes the
pending request if and only if its frame id equals the pending request's
frame id, its command equals the pending request's (defaulted) expected-reply
command, and the completion has not already fired; and a valid frame whose id
matches but whose command is the expected command plus 2 does not complete
the request and is instead offered to the subscriber chain. -/
theorem C4_correlation (r : Pending) (f : PcatFrame) (notify : Nat → PcatFrame → Nat)
    (data : List Nat) (fB : PcatFrame)
    (hwant : r.want < 65536)
    (hparse : pcat_parse data = .ok fB)
    (hid : fB.frame_id = r.frame_id)
    (hcmd : fB.command = (pcat_want r + 2) % 65536) :
    ((pcat_process_reply (some r) f).processed = true ↔
      (f.frame_id = r.frame_id ∧ f.command = pcat_want r ∧ r.completed = false)) ∧
    (pcat_process_data (some r) notify data).completed = false ∧
    (pcat_process_data (some r) notify data).notified = true := by
  have hwantLt : pcat_want r < 65536 := by
    unfold pcat_want
    split
    · exact Nat.mod_lt _ (by norm_num)
    · exact hwant
  have hr1want : (if r.want = 0 then { r with want := (r.cmd + 1) % 65536 } else r).want
      = pcat_want r := by
    unfold pcat_want; split <;> rfl
  have hr1comp : (if r.want = 0 then { r with want := (r.cmd + 1) % 65536 } else r).completed
      = r.completed := by
    split <;> rfl
  have hiff : ∀ g : PcatFrame, (pcat_process_reply (some r) g).processed = true ↔
      (g.frame_id = r.frame_id ∧ g.command = pcat_want r ∧ r.completed = false) := by
    intro g
    simp only [pcat_process_reply]
    rw [hr1want, hr1comp]
    by_cases h1 : r.frame_id = g.frame_id
    · rw [if_neg (not_not_intro h1)]
      by_cases h2 : pcat_want r = g.command
      · rw [if_neg (not_not_intro h2)]
        cases hc : r.completed with
        | false =>
          rw [if_neg (by simp)]
          exact ⟨fun _ => ⟨h1.symm, h2.symm, rfl⟩, fun _ => rfl⟩
        | true =>
          rw [if_pos rfl]
          exact ⟨fun hfo => absurd hfo Bool.false_ne_true,
                 fun hrhs => absurd hrhs.2.2 (by simp)⟩
      · rw [if_pos h2]
        exact ⟨fun hfo => absurd hfo Bool.false_ne_true,
               fun hrhs => absurd hrhs.2.1.symm h2⟩
    · rw [if_pos h1]
      exact ⟨fun hfo => absurd hfo Bool.false_ne_true,
             fun hrhs => absurd hrhs.1.symm h1⟩
  refine ⟨hiff f, ?_⟩
  have hnoB : (pcat_process_reply (some r) fB).processed = false := by
    rcases Bool.eq_false_or_eq_true (pcat_process_reply (some r) fB).processed with h | h
    swap
    · exact h
    · exfalso
      rcases (hiff fB).mp h with ⟨_, hc, _⟩
      rw [hcmd] at hc
      omega
  unfold pcat_process_data
  rw [hparse]
  simp only [hnoB, Bool.false_eq_true, if_false]
  split <;> simp

set_option maxRecDepth 8000 in
/-- Claim C4 witness: pending request with frame id 7, command 1 (so expected
reply 2); a valid frame with id 7 and command 4 = 2 + 2 neither completes the
request nor skips the subscriber chain. -/
theorem C4_correlation_witness :
    (let r : Pending := ⟨7, 1, 0, false, none⟩
     let f : PcatFrame := ⟨0x81, 0x01, 7, 3, 4, [], 0, 27604⟩
     r.want < 65536 ∧
     pcat_parse (pcat_raw_frame 0x81 0x01 7 4 false []) = .ok f ∧
     f.frame_id = r.frame_id ∧
     f.command = (pcat_want r + 2) % 65536 ∧
     (((pcat_process_reply (some r) f).processed = true ↔
        (f.frame_id = r.frame_id ∧ f.command = pcat_want r ∧ r.completed = false)) ∧
      (pcat_process_data (some r) (fun _ _ => 0) (pcat_raw_frame 0x81 0x01 7 4 false [])).completed
        = false ∧
      (pcat_process_data (some r) (fun _ _ => 0) (pcat_raw_frame 0x81 0x01 7 4 false [])).notified
        = true)) :=
  ⟨by norm_num, by decide, by decide, by decide,
   C4_correlation ⟨7, 1, 0, false, none⟩ ⟨0x81, 0x01, 7, 3, 4, [], 0, 27604⟩
     (fun _ _ => 0) (pcat_raw_frame 0x81 0x01 7 4 false []) ⟨0x81, 0x01, 7, 3, 4, [], 0, 27604⟩
     (by norm_num) (by decide) (by decide) (by decide)⟩

/-- Claim C5: a decoded, validated frame with the need-ack flag set that
matches no pending request and that the notifier chain leaves unhandled
(`NOTIFY_DONE`) makes the engine emit exactly one outgoing frame, with the
received command plus one, an empty body, and `need_ack = false`. -/
theorem C5_autoack (slot : Option Pending) (notify : Nat → PcatFrame → Nat)
    (data : List Nat) (f : PcatFrame)
    (hparse : pcat_parse data = .ok f)
    (hnp : (pcat_process_reply slot f).processed = false)
    (hack : f.need_ack ≠ 0)
    (hn : notify f.command f = NOTIFY_DONE) :
    (pcat_process_data slot notify data).writes = [⟨f.frame_id, f.command + 1, false, []⟩] := by
  simp only [pcat_process_data]
  rw [hparse]
  simp [hnp, hn, hack]

set_option maxRecDepth 8000 in
/-- Claim C5 witness: a PMU status frame (command 7, need-ack) with no pending
request and an indifferent notifier chain is acknowledged with command 8. -/
theorem C5_autoack_witness :
    (pcat_parse (pcat_raw_frame 0x81 0x01 9 7 true []) =
      .ok ⟨0x81, 0x01, 9, 3, 7, [], 1, 27402⟩ ∧
     (pcat_process_reply none ⟨0x81, 0x01, 9, 3, 7, [], 1, 27402⟩).processed = false ∧
     (⟨0x81, 0x01, 9, 3, 7, [], 1, 27402⟩ : PcatFrame).need_ack ≠ 0 ∧
     (fun _ : Nat => fun _ : PcatFrame => NOTIFY_DONE) 7 ⟨0x81, 0x01, 9, 3, 7, [], 1, 27402⟩
       = NOTIFY_DONE) ∧
    (pcat_process_data none (fun _ _ => NOTIFY_DONE) (pcat_raw_frame 0x81 0x01 9 7 true [])).writes
      = [⟨9, 8, false, []⟩] :=
  ⟨⟨by decide, by decide, by decide, rfl⟩,
   C5_autoack none (fun _ _ => NOTIFY_DONE) (pcat_raw_frame 0x81 0x01 9 7 true [])
     ⟨0x81, 0x01, 9, 3, 7, [], 1, 27402⟩ (by decide) (by decide) (by decide) rfl⟩

/-- An 8191-byte partial accumulation: a valid PMU-sourced head announcing a
9000-byte length field, padded with zeros; every decode attempt on it (and on
one more appended byte) still needs more input. -/
def pcat_c6_buf : List Nat :=
  0xA5 :: 0x81 :: 0x01 :: 0x00 :: 0x00 :: 0x28 :: 0x23 :: 0x01 :: 0x00 ::
    List.replicate 8182 0

/-- Decoding the padded partial frame plus one byte still needs more bytes. -/
lemma pcat_parse_c6 : pcat_parse (pcat_c6_buf ++ [0xAA]) = .needMore := by
  have hlen : (pcat_c6_buf ++ [0xAA]).length = 8192 := by
    rw [pcat_c6_buf]
    simp only [List.length_append, List.length_cons, List.length_replicate,
               List.length_nil]
  have h5 : pU16 (pcat_c6_buf ++ [0xAA]) 5 = 9000 := by
    show (0x28 : Nat) % 256 + 256 * ((0x23 : Nat) % 256) = 9000
    norm_num
  unfold pcat_parse
  rw [if_neg (by rw [hlen]; norm_num)]
  rw [if_neg (by
    show ¬((0xA5 : Nat) % 256 ≠ PCAT_MAGIC_HEAD)
    simp [PCAT_MAGIC_HEAD])]
  rw [if_neg (by
    show ¬((0x81 : Nat) % 256 ≠ PCAT_ADDR_PMU)
    simp [PCAT_ADDR_PMU])]
  rw [if_neg (by
    intro hcon
    exact hcon.1 (by show (0x01 : Nat) % 256 = PCAT_ADDR_CPU; simp [PCAT_ADDR_CPU]))]
  rw [if_neg (by rw [h5]; omega)]
  rw [if_pos (by rw [hlen, h5]; omega)]

/-- Claim C6, counterexample: with 8191 bytes already buffered, feeding the
two bytes `AA BB` consumes only the first: the buffer afterwards ends in `AA`
and the newest byte `BB` was dropped, so truncation favours the oldest bytes,
not the newest as the claim states. -/
theorem C6_counterexample :
    (pcat_pmu_receive_buf ⟨0, none, pcat_c6_buf⟩ (fun _ _ => 0) [0xAA, 0xBB]).1 = 1 ∧
    (pcat_pmu_receive_buf ⟨0, none, pcat_c6_buf⟩ (fun _ _ => 0) [0xAA, 0xBB]).2.1.buffer
      = pcat_c6_buf ++ [0xAA] ∧
    0xBB ∉ (pcat_pmu_receive_buf ⟨0, none, pcat_c6_buf⟩ (fun _ _ => 0) [0xAA, 0xBB]).2.1.buffer := by
  have hlen : pcat_c6_buf.length = 8191 := by
    rw [pcat_c6_buf]
    simp only [List.length_cons, List.length_replicate]
  have hfill : pcat_fill_buffer pcat_c6_buf [0xAA, 0xBB] = (1, pcat_c6_buf ++ [0xAA]) := by
    unfold pcat_fill_buffer
    rw [if_pos (by simp [hlen])]
    simp [hlen]
  have hout : pcat_process_data none (fun _ _ => 0) (pcat_c6_buf ++ [0xAA])
      = ⟨-11, none, none, false, [], false⟩ := by
    simp [pcat_process_data, pcat_parse_c6]
  have hmain : pcat_pmu_receive_buf ⟨0, none, pcat_c6_buf⟩ (fun _ _ => 0) [0xAA, 0xBB]
      = (1, ⟨0, none, pcat_c6_buf ++ [0xAA]⟩, []) := by
    simp [pcat_pmu_receive_buf, hfill, hout]
  rw [hmain]
  refine ⟨rfl, rfl, ?_⟩
  rw [pcat_c6_buf]
  simp only [List.mem_append, List.mem_cons, List.mem_replicate, List.mem_singleton]
  norm_num

/-- After any fill, the buffer stays within the 8192-byte capacity. -/
lemma pcat_fill_buffer_length (buffer buf : List Nat) (h : buffer.length ≤ 8192) :
    (pcat_fill_buffer buffer buf).2.length ≤ 8192 := by
  unfold pcat_fill_buffer
  split
  · simp [List.length_take]
    omega
  · simp
    omega

/-- Claim C6 (amended): after any single feed, the reassembly buffer's stored
length never exceeds the 8192-byte capacity; and when appending the new bytes
would overflow the capacity, only the oldest prefix of the new input that
fits is kept — the newest excess bytes are dropped (truncation favours
retaining the oldest bytes). -/
theorem C6_buffer_bound (st : PmuState) (notify : Nat → PcatFrame → Nat) (buf : List Nat)
    (h : st.buffer.length ≤ 8192) :
    (pcat_pmu_receive_buf st notify buf).2.1.buffer.length ≤ 8192 ∧
    (8192 < st.buffer.length + buf.length →
      (pcat_fill_buffer st.buffer buf).2
        = st.buffer ++ buf.take (8192 - st.buffer.length) ∧
      (pcat_fill_buffer st.buffer buf).2.length = 8192) := by
  constructor
  · unfold pcat_pmu_receive_buf
    split
    · simpa using h
    · by_cases hr :
        (pcat_process_data st.slot notify (pcat_fill_buffer st.buffer buf).2).ret = -11
      · simpa [hr] using pcat_fill_buffer_length st.buffer buf h
      · simp [hr]
  · intro hov
    unfold pcat_fill_buffer
    rw [if_pos hov]
    refine ⟨rfl, ?_⟩
    simp [List.length_take]
    omega

/-- Claim C6 witness: feeding one byte into an empty buffer. -/
theorem C6_buffer_bound_witness :
    ((⟨0, none, []⟩ : PmuState).buffer.length ≤ 8192) ∧
    ((pcat_pmu_receive_buf ⟨0, none, []⟩ (fun _ _ => 0) [1]).2.1.buffer.length ≤ 8192 ∧
     (8192 < (⟨0, none, []⟩ : PmuState).buffer.length + ([1] : List Nat).length →
       (pcat_fill_buffer (⟨0, none, []⟩ : PmuState).buffer [1]).2
         = (⟨0, none, []⟩ : PmuState).buffer
             ++ ([1] : List Nat).take (8192 - (⟨0, none, []⟩ : PmuState).buffer.length) ∧
       (pcat_fill_buffer (⟨0, none, []⟩ : PmuState).buffer [1]).2.length = 8192)) :=
  ⟨by simp, C6_buffer_bound ⟨0, none, []⟩ (fun _ _ => 0) [1] (by simp)⟩

/-- A non-empty feed leaves a non-empty accumulated buffer. -/
lemma pcat_fill_buffer_ne_nil (buffer buf : List Nat) (h : buf ≠ [])
    (hb : buffer.length ≤ 8192) :
    (pcat_fill_buffer buffer buf).2 ≠ [] := by
  have hbl : 0 < buf.length := List.length_pos.mpr h
  have hlen2 : 0 < (pcat_fill_buffer buffer buf).2.length := by
    unfold pcat_fill_buffer
    split
    · show 0 < (buffer ++ List.take (8192 - buffer.length) buf).length
      rw [List.length_append, List.length_take]
      omega
    · show 0 < (buffer ++ buf).length
      rw [List.length_append]
      omega
  intro hnil
  rw [hnil] at hlen2
  simp at hlen2

/-- Claim C7: after each (non-empty) feed, the accumulated buffer is preserved
for the next feed exactly when the decode attempt reports that more bytes are
needed (`-EAGAIN`); in every other case the buffer is cleared to empty
unconditionally. -/
theorem C7_preserve_iff (st : PmuState) (notify : Nat → PcatFrame → Nat) (buf : List Nat)
    (hne : buf ≠ []) (hlen : st.buffer.length ≤ 8192) :
    ((pcat_pmu_receive_buf st notify buf).2.1.buffer = (pcat_fill_buffer st.buffer buf).2 ↔
      (pcat_process_data st.slot notify (pcat_fill_buffer st.buffer buf).2).ret = -11) ∧
    ((pcat_process_data st.slot notify (pcat_fill_buffer st.buffer buf).2).ret ≠ -11 →
      (pcat_pmu_receive_buf st notify buf).2.1.buffer = []) := by
  have happ := pcat_fill_buffer_ne_nil st.buffer buf hne hlen
  have hmain : pcat_pmu_receive_buf st notify buf
      = ((pcat_fill_buffer st.buffer buf).1,
         { st with
            buffer :=
              if (pcat_process_data st.slot notify
                    (pcat_fill_buffer st.buffer buf).2).ret = -11
              then (pcat_fill_buffer st.buffer buf).2 else [],
            slot := (pcat_process_data st.slot notify
                      (pcat_fill_buffer st.buffer buf).2).slot },
         (pcat_process_data st.slot notify (pcat_fill_buffer st.buffer buf).2).writes) := by
    unfold pcat_pmu_receive_buf
    rw [if_neg (by simpa using fun h0 => hne (List.length_eq_zero.mp h0))]
  rw [hmain]
  by_cases hr : (pcat_process_data st.slot notify (pcat_fill_buffer st.buffer buf).2).ret = -11
  · simp [hr]
  · have happ2 : ¬([] = (pcat_fill_buffer st.buffer buf).2) := fun hx => happ hx.symm
    simp [hr, happ2]

/-- Claim C7 witness: a single zero byte into an empty buffer is an incomplete
head, so the buffer is preserved. -/
theorem C7_preserve_iff_witness :
    (([0] : List Nat) ≠ [] ∧ (⟨0, none, []⟩ : PmuState).buffer.length ≤ 8192) ∧
    (((pcat_pmu_receive_buf ⟨0, none, []⟩ (fun _ _ => 0) [0]).2.1.buffer
        = (pcat_fill_buffer (⟨0, none, []⟩ : PmuState).buffer [0]).2 ↔
      (pcat_process_data (⟨0, none, []⟩ : PmuState).slot (fun _ _ => 0)
        (pcat_fill_buffer (⟨0, none, []⟩ : PmuState).buffer [0]).2).ret = -11) ∧
     ((pcat_process_data (⟨0, none, []⟩ : PmuState).slot (fun _ _ => 0)
        (pcat_fill_buffer (⟨0, none, []⟩ : PmuState).buffer [0]).2).ret ≠ -11 →
      (pcat_pmu_receive_buf ⟨0, none, []⟩ (fun _ _ => 0) [0]).2.1.buffer = [])) :=
  ⟨⟨by decide, by decide⟩,
   C7_preserve_iff ⟨0, none, []⟩ (fun _ _ => 0) [0] (by decide) (by decide)⟩

/-- Claim C8: received bytes that fail a structural check (bad head magic,
out-of-range length field, bad end magic, or CRC mismatch) leave the
pending-request slot and request entirely unchanged: no completion is
signaled, nothing is written out, no subscriber is notified, and the
processing result is the local `-EBADMSG`, never surfaced to the waiting
caller. -/
theorem C8_malformed_no_effect (slot : Option Pending) (notify : Nat → PcatFrame → Nat)
    (data : List Nat)
    (h : pcat_parse data = .badHeadMagic ∨ pcat_parse data = .badLength ∨
         pcat_parse data = .badFootMagic ∨ pcat_parse data = .badCrc) :
    pcat_process_data slot notify data = ⟨-74, slot, slot, false, [], false⟩ := by
  rcases h with h | h | h | h <;> simp [pcat_process_data, h]

/-- Claim C8 witness: nine zero bytes fail the head-magic check and leave a
concrete pending request untouched. -/
theorem C8_malformed_no_effect_witness :
    (pcat_parse (List.replicate 9 0) = .badHeadMagic ∨
     pcat_parse (List.replicate 9 0) = .badLength ∨
     pcat_parse (List.replicate 9 0) = .badFootMagic ∨
     pcat_parse (List.replicate 9 0) = .badCrc) ∧
    pcat_process_data (some ⟨1, 2, 3, false, none⟩) (fun _ _ => 0) (List.replicate 9 0)
      = ⟨-74, some ⟨1, 2, 3, false, none⟩, some ⟨1, 2, 3, false, none⟩, false, [], false⟩ :=
  ⟨Or.inl (by decide),
   C8_malformed_no_effect (some ⟨1, 2, 3, false, none⟩) (fun _ _ => 0)
     (List.replicate 9 0) (Or.inl (by decide))⟩

/-- Every position of an all-zero list reads zero. -/
lemma getD_replicate_zero (n i : Nat) : (List.replicate n (0 : Nat)).getD i 0 = 0 := by
  rcases Nat.lt_or_ge i n with hlt | hge
  · rw [List.getD_eq_getElem?_getD]
    simp [List.getElem?_replicate, hlt]
  · rw [List.getD_eq_default]
    simp [hge]

/-- Claim C9: for a destination buffer of length `len ≥ 1`, `read_string`
zero-fills the buffer, copies at most `min (len - 1) (reply size)` payload
bytes over its front, keeps the final byte NUL, preserves the buffer length,
and leaves the buffer all zero when the exchange yields no payload. -/
theorem C9_read_string (len : Nat) (reply : Option (List Nat)) (h : 1 ≤ len) :
    (pcat_pmu_read_string len reply).length = len ∧
    (pcat_pmu_read_string len reply).getD (len - 1) 0 = 0 ∧
    (reply = none → pcat_pmu_read_string len reply = List.replicate len 0) ∧
    (∀ d, reply = some d →
      pcat_pmu_read_string len reply
        = d.take (min (len - 1) d.length) ++ List.replicate (len - min (len - 1) d.length) 0) := by
  cases reply with
  | none =>
    refine ⟨by simp [pcat_pmu_read_string], ?_, ?_, ?_⟩
    · exact getD_replicate_zero len (len - 1)
    · intro _
      rfl
    · intro d hd
      exact Option.noConfusion hd
  | some d =>
    have hn : (d.take (min (len - 1) d.length)).length = min (len - 1) d.length := by
      simp [List.length_take]
    refine ⟨?_, ?_, ?_, ?_⟩
    · simp only [pcat_pmu_read_string]
      simp [List.length_take]
    · simp only [pcat_pmu_read_string]
      rw [List.getD_append_right _ _ _ _ (by rw [hn]; omega)]
      exact getD_replicate_zero _ _
    · intro hno
      exact Option.noConfusion hno
    · intro d' hd'
      cases hd'
      rfl

/-- Claim C9 witness: a four-byte buffer receiving a two-byte payload. -/
theorem C9_read_string_witness :
    (1 : Nat) ≤ 4 ∧
    ((pcat_pmu_read_string 4 (some [65, 66])).length = 4 ∧
     (pcat_pmu_read_string 4 (some [65, 66])).getD (4 - 1) 0 = 0 ∧
     (some [65, 66] = none → pcat_pmu_read_string 4 (some [65, 66]) = List.replicate 4 0) ∧
     (∀ d, some [65, 66] = some d →
       pcat_pmu_read_string 4 (some [65, 66])
         = d.take (min (4 - 1) d.length) ++ List.replicate (4 - min (4 - 1) d.length) 0)) :=
  ⟨by norm_num, C9_read_string 4 (some [65, 66]) (by norm_num)⟩

/-- Claim C10: the automatic acknowledgment for an unhandled need-ack frame
carries the received frame's id, echoed back, and leaves the shared
outgoing-frame counter untouched — unlike `pcat_pmu_send`, which draws the
next value from the counter. -/
theorem C10_ack_echoes_id (st : PmuState) (notify : Nat → PcatFrame → Nat)
    (buf : List Nat) (f : PcatFrame)
    (hne : buf ≠ [])
    (hparse : pcat_parse (pcat_fill_buffer st.buffer buf).2 = .ok f)
    (hnp : (pcat_process_reply st.slot f).processed = false)
    (hack : f.need_ack ≠ 0)
    (hn : notify f.command f = NOTIFY_DONE) :
    (pcat_pmu_receive_buf st notify buf).2.2 = [⟨f.frame_id, f.command + 1, false, []⟩] ∧
    (pcat_pmu_receive_buf st notify buf).2.1.frame = st.frame ∧
    (pcat_pmu_send st (f.command + 1) []).2.frame_id = (st.frame + 1) % 65536 ∧
    (pcat_pmu_send st (f.command + 1) []).1.frame = st.frame + 1 := by
  have hwrites : (pcat_process_data st.slot notify (pcat_fill_buffer st.buffer buf).2).writes
      = [⟨f.frame_id, f.command + 1, false, []⟩] := by
    simp only [pcat_process_data]
    rw [hparse]
    simp [hnp, hn, hack]
  unfold pcat_pmu_receive_buf
  rw [if_neg (by simpa using fun h0 => hne (List.length_eq_zero.mp h0))]
  refine ⟨by simpa using hwrites, by simp, rfl, rfl⟩

set_option maxRecDepth 8000 in
/-- Claim C10 witness: a need-ack frame with id 3 and command 0x21 arriving
into an empty buffer with counter 5: the ack echoes id 3 and the counter
stays 5, while a `send` would use id 6. -/
theorem C10_ack_echoes_id_witness :
    ((pcat_raw_frame 0x81 0x01 3 0x21 true [] : List Nat) ≠ [] ∧
     pcat_parse (pcat_fill_buffer (⟨5, none, []⟩ : PmuState).buffer
         (pcat_raw_frame 0x81 0x01 3 0x21 true [])).2
       = .ok ⟨0x81, 0x01, 3, 3, 0x21, [], 1, 41025⟩ ∧
     (pcat_process_reply (⟨5, none, []⟩ : PmuState).slot
        ⟨0x81, 0x01, 3, 3, 0x21, [], 1, 41025⟩).processed = false ∧
     (⟨0x81, 0x01, 3, 3, 0x21, [], 1, 41025⟩ : PcatFrame).need_ack ≠ 0) ∧
    ((pcat_pmu_receive_buf ⟨5, none, []⟩ (fun _ _ => NOTIFY_DONE)
        (pcat_raw_frame 0x81 0x01 3 0x21 true [])).2.2
       = [⟨3, 0x21 + 1, false, []⟩] ∧
     (pcat_pmu_receive_buf ⟨5, none, []⟩ (fun _ _ => NOTIFY_DONE)
        (pcat_raw_frame 0x81 0x01 3 0x21 true [])).2.1.frame = 5 ∧
     (pcat_pmu_send ⟨5, none, []⟩ (0x21 + 1) []).2.frame_id = (5 + 1) % 65536 ∧
     (pcat_pmu_send ⟨5, none, []⟩ (0x21 + 1) []).1.frame = 5 + 1) :=
  ⟨⟨by decide, by decide, by decide, by decide⟩,
   C10_ack_echoes_id ⟨5, none, []⟩ (fun _ _ => NOTIFY_DONE)
     (pcat_raw_frame 0x81 0x01 3 0x21 true []) ⟨0x81, 0x01, 3, 3, 0x21, [], 1, 41025⟩
     (by decide) (by decide) (by decide) (by decide) rfl⟩

end PcatPmu
